import Mathlib

/-!
# Verification of the workload-api-shim credential server

Shallow embedding of `shimserver` (the SPIFFE Workload API shim): the
credential decoder (`loadPEMDERs`, `loadPrivateKeyPKCS8DER`,
`loadTrustBundles`), the response builders (`buildX509SVIDResponse`,
`buildX509BundlesResponse`, `buildJWTBundlesResponse`), the rotation
broadcaster (`subscribe` / `unsubscribe` / `broadcast`), and the streaming
session handlers (`FetchX509SVID` and friends).

External collaborators (Go standard library: `encoding/pem`,
`crypto/x509`, `encoding/base64`, `encoding/json`) are modelled at their
interface boundary: a PEM file is the sequence of blocks `pem.Decode`
successively yields (with an optional point after which no further block
decodes), and the x509 / base64 / json primitives are fields of a
`GoStdlib` record, so theorems quantify over every behaviour of those
primitives and witnesses instantiate them with small concrete ones.
Bytes are `List Nat`.
-/

namespace ShimServer

/-- A successfully decodable PEM block as `pem.Decode` reports it:
its type line and its decoded (DER) bytes. -/
structure PemBlock where
  ty : String
  bytes : List Nat
deriving Repr, DecidableEq

/-- One item of a PEM file, at the granularity `pem.Decode` observes:
either a decodable block, or the point (`junk`) at which `pem.Decode`
finds no further block (trailing garbage, a truncated or malformed
block). -/
inductive PemItem where
  | block : PemBlock → PemItem
  | junk : PemItem
deriving Repr, DecidableEq

/-- A key of `trust_bundles.json`: `{use, kty, crv, x, y, x5c}`. -/
structure TrustKey where
  use : String
  kty : String
  crv : String
  x : String
  y : String
  x5c : List String
deriving Repr, DecidableEq

/-- One trust-domain entry of `trust_bundles.json`. -/
structure TrustDomainEntry where
  keys : List TrustKey
  spiffeSequence : Int
deriving Repr, DecidableEq

/-- The parsed `trust_bundles.json`: the `trust_domains` JSON object as an
association list (JSON object keys are unique; Go iterates the resulting
map in unspecified order, the claims proved below are order-insensitive). -/
abbrev TrustBundlesFile := List (String × TrustDomainEntry)

/-- A URI as `crypto/x509` exposes it on a certificate: its `String()`
rendering and its `Host` component. -/
structure GoURI where
  full : String
  host : String
deriving Repr, DecidableEq

/-- A parsed certificate, restricted to the field the shim reads: `URIs`,
the URI subject-alternative-names. -/
structure Certificate where
  uris : List GoURI
deriving Repr, DecidableEq

/-- The Go standard-library primitives the shim calls, modelled at their
interface boundary. `Key` is the abstract type of parsed private keys
(`crypto/x509` returns `*ecdsa.PrivateKey` / `*rsa.PrivateKey`; the shim
only passes them on to `MarshalPKCS8PrivateKey`). -/
structure GoStdlib (Key : Type) where
  /-- `x509.ParseCertificate` -/
  parseCertificate : List Nat → Option Certificate
  /-- `x509.ParseECPrivateKey` -/
  parseECPrivateKey : List Nat → Option Key
  /-- `x509.ParsePKCS1PrivateKey` -/
  parsePKCS1PrivateKey : List Nat → Option Key
  /-- `x509.MarshalPKCS8PrivateKey` -/
  marshalPKCS8PrivateKey : Key → Option (List Nat)
  /-- `base64.StdEncoding.DecodeString` -/
  base64Decode : String → Option (List Nat)
  /-- `json.Marshal` applied to one `trustKey` -/
  marshalTrustKey : TrustKey → Option (List Nat)
  /-- `json.Marshal` applied to the `{keys: [...]}` wrapper document -/
  marshalKeysDoc : List (List Nat) → Option (List Nat)

/-- The credentials directory: the four files the shim reads. `none`
means the file is absent/unreadable (`os.ReadFile` fails). For
`trust_bundles.json`, `some none` means readable but `json.Unmarshal`
fails, `some (some tb)` is the parsed document. -/
structure FS where
  certificates : Option (List PemItem)
  privateKey : Option (List PemItem)
  caCertificates : Option (List PemItem)
  trustBundles : Option (Option TrustBundlesFile)

/-- Error conditions of the decoder and builders, one constructor per
`fmt.Errorf`/`errors` site in the source. -/
inductive BuildErr where
  /-- `read <file>: <err>` — `os.ReadFile` failed -/
  | ioError (file : String)
  /-- `no certificates found in certificates.pem` -/
  | noCertificates
  /-- `no PEM block in <file>` -/
  | noPemBlock (file : String)
  /-- `parse EC private key: <err>` -/
  | parseECKey
  /-- `parse RSA private key: <err>` -/
  | parseRSAKey
  /-- `unsupported PEM block type <ty> in <file>` -/
  | unsupportedKeyType (ty : String)
  /-- `x509.MarshalPKCS8PrivateKey` failed -/
  | marshalPKCS8
  /-- `parse leaf certificate: <err>` -/
  | parseLeaf
  /-- `leaf certificate has no URI SANs` -/
  | noURISANs
  /-- `parse trust_bundles.json: <err>` -/
  | parseTrustBundles
  /-- `decode x5c entry for domain <domain>: <err>` -/
  | x5cDecode (domain : String)
  /-- `marshal jwt key for domain <domain>: <err>` -/
  | marshalJwtKey (domain : String)
  /-- `marshal jwks for domain <domain>: <err>` -/
  | marshalJwks (domain : String)
deriving Repr, DecidableEq

/-- The loop body of `loadPEMDERs`: repeatedly `pem.Decode`, stop when it
yields no block, collect the blocks in order. -/
def pemBlocks : List PemItem → List PemBlock
  | [] => []
  | .junk :: _ => []
  | .block b :: rest => b :: pemBlocks rest

/-- `pem.Decode` called once (as in `loadPrivateKeyPKCS8DER`): the first
decodable block, or none. -/
def pemDecodeFirst : List PemItem → Option PemBlock
  | [] => none
  | .junk :: _ => none
  | .block b :: _ => some b

/-- `loadPEMDERs`: decode every PEM block of the named file, return each
block's raw DER bytes; an unreadable file is an error, a file with no
decodable block yields `.ok []`. -/
def loadPEMDERs (file : Option (List PemItem)) (name : String) :
    Except BuildErr (List (List Nat)) :=
  match file with
  | none => .error (.ioError name)
  | some items => .ok ((pemBlocks items).map PemBlock.bytes)

/-- `loadPrivateKeyPKCS8DER`: read `private_key.pem`, decode one PEM
block, and normalize to PKCS#8 DER: a `PRIVATE KEY` block's bytes are
returned as-is; `EC PRIVATE KEY` / `RSA PRIVATE KEY` blocks are parsed
and re-marshalled; any other type is unsupported. -/
def loadPrivateKeyPKCS8DER {Key : Type} (lib : GoStdlib Key)
    (file : Option (List PemItem)) : Except BuildErr (List Nat) :=
  match file with
  | none => .error (.ioError "private_key.pem")
  | some items =>
    match pemDecodeFirst items with
    | none => .error (.noPemBlock "private_key.pem")
    | some b =>
      if b.ty = "PRIVATE KEY" then
        .ok b.bytes
      else if b.ty = "EC PRIVATE KEY" then
        match lib.parseECPrivateKey b.bytes with
        | none => .error .parseECKey
        | some key =>
          match lib.marshalPKCS8PrivateKey key with
          | none => .error .marshalPKCS8
          | some der => .ok der
      else if b.ty = "RSA PRIVATE KEY" then
        match lib.parsePKCS1PrivateKey b.bytes with
        | none => .error .parseRSAKey
        | some key =>
          match lib.marshalPKCS8PrivateKey key with
          | none => .error .marshalPKCS8
          | some der => .ok der
      else
        .error (.unsupportedKeyType b.ty)

/-- `loadTrustBundles`: read and `json.Unmarshal` `trust_bundles.json`. -/
def loadTrustBundles (fs : FS) : Except BuildErr TrustBundlesFile :=
  match fs.trustBundles with
  | none => .error (.ioError "trust_bundles.json")
  | some none => .error .parseTrustBundles
  | some (some tb) => .ok tb

/-- `concatDERs`: concatenate a slice of DER byte slices. -/
def concatDERs (ders : List (List Nat)) : List Nat :=
  ders.flatten

/-- A `map[string][]byte` as the responses carry it. -/
abbrev Bundles := List (String × List Nat)

/-- Go map assignment `m[k] = v`: overwrite the key if present,
otherwise add it. -/
def mapInsert : Bundles → String → List Nat → Bundles
  | [], k, v => [(k, v)]
  | (k₀, v₀) :: rest, k, v =>
    if k₀ = k then (k, v) :: rest else (k₀, v₀) :: mapInsert rest k v

/-- Go map read `m[k]`. -/
def mapLookup : Bundles → String → Option (List Nat)
  | [], _ => none
  | (k₀, v₀) :: rest, k => if k₀ = k then some v₀ else mapLookup rest k

/-- One `X509SVID` message of the response. -/
structure X509SVID where
  spiffeId : String
  x509Svid : List Nat
  x509SvidKey : List Nat
  bundle : List Nat
deriving Repr, DecidableEq

/-- The `X509SVIDResponse` message. -/
structure X509SVIDResponse where
  svids : List X509SVID
deriving Repr, DecidableEq

/-- The `X509BundlesResponse` message. -/
structure X509BundlesResponse where
  bundles : Bundles
deriving Repr, DecidableEq

/-- The `JWTBundlesResponse` message. -/
structure JWTBundlesResponse where
  bundles : Bundles
deriving Repr, DecidableEq

/-- `buildX509SVIDResponse`: load the certificate chain, key and CA
bundle, extract the SPIFFE ID from the leaf's first URI SAN, and
assemble the response. -/
def buildX509SVIDResponse {Key : Type} (lib : GoStdlib Key) (fs : FS) :
    Except BuildErr X509SVIDResponse :=
  match loadPEMDERs fs.certificates "certificates.pem" with
  | .error e => .error e
  | .ok certDERs =>
    match certDERs with
    | [] => .error .noCertificates
    | c₀ :: cr =>
      match loadPrivateKeyPKCS8DER lib fs.privateKey with
      | .error e => .error e
      | .ok keyDER =>
        match loadPEMDERs fs.caCertificates "ca_certificates.pem" with
        | .error e => .error e
        | .ok caDERs =>
          match lib.parseCertificate c₀ with
          | none => .error .parseLeaf
          | some leaf =>
            match leaf.uris with
            | [] => .error .noURISANs
            | u :: _ =>
              .ok ⟨[⟨u.full, concatDERs (c₀ :: cr), keyDER,
                     concatDERs caDERs⟩]⟩

/-- The inner `for _, b64cert := range key.X5C` loop of
`buildX509BundlesResponse`: decode each x5c entry from base64, failing
the whole build on the first undecodable entry. -/
def decodeX5C {Key : Type} (lib : GoStdlib Key) (domain : String) :
    List String → Except BuildErr (List (List Nat))
  | [] => .ok []
  | c :: rest =>
    match lib.base64Decode c with
    | none => .error (.x5cDecode domain)
    | some der =>
      match decodeX5C lib domain rest with
      | .error e => .error e
      | .ok ders => .ok (der :: ders)

/-- The `for _, key := range entry.Keys` loop of
`buildX509BundlesResponse`: collect the decoded x5c entries of every
`x509-svid`-use key of a domain, in order. -/
def domainX509DERs {Key : Type} (lib : GoStdlib Key) (domain : String) :
    List TrustKey → Except BuildErr (List (List Nat))
  | [] => .ok []
  | k :: rest =>
    if k.use ≠ "x509-svid" then
      domainX509DERs lib domain rest
    else
      match decodeX5C lib domain k.x5c with
      | .error e => .error e
      | .ok ders =>
        match domainX509DERs lib domain rest with
        | .error e => .error e
        | .ok more => .ok (ders ++ more)

/-- The `for domain, entry := range tb.TrustDomains` loop of
`buildX509BundlesResponse`: skip the local domain, decode each federated
domain's `x509-svid` material, and add it to the bundle map when
non-empty. -/
def addFederated {Key : Type} (lib : GoStdlib Key) (localTD : String)
    (bundles : Bundles) :
    List (String × TrustDomainEntry) → Except BuildErr Bundles
  | [] => .ok bundles
  | (domain, entry) :: rest =>
    if "spiffe://" ++ domain = localTD then
      addFederated lib localTD bundles rest
    else
      match domainX509DERs lib domain entry.keys with
      | .error e => .error e
      | .ok ders =>
        addFederated lib localTD
          (if ders.length > 0 then
            mapInsert bundles ("spiffe://" ++ domain) (concatDERs ders)
          else bundles) rest

/-- `buildX509BundlesResponse`: derive the local trust domain from the
leaf's first URI SAN host, map it to the concatenated CA bundle, then
add the federated domains of `trust_bundles.json`. -/
def buildX509BundlesResponse {Key : Type} (lib : GoStdlib Key) (fs : FS) :
    Except BuildErr X509BundlesResponse :=
  match loadPEMDERs fs.certificates "certificates.pem" with
  | .error e => .error e
  | .ok certDERs =>
    match certDERs with
    | [] => .error .noCertificates
    | c₀ :: _ =>
      match lib.parseCertificate c₀ with
      | none => .error .parseLeaf
      | some leaf =>
        match leaf.uris with
        | [] => .error .noURISANs
        | u :: _ =>
          match loadPEMDERs fs.caCertificates "ca_certificates.pem" with
          | .error e => .error e
          | .ok caDERs =>
            match loadTrustBundles fs with
            | .error e => .error e
            | .ok tb =>
              match addFederated lib ("spiffe://" ++ u.host)
                  [("spiffe://" ++ u.host, concatDERs caDERs)] tb with
              | .error e => .error e
              | .ok bundles => .ok ⟨bundles⟩

/-- The `for _, key := range entry.Keys` loop of
`buildJWTBundlesResponse`: `json.Marshal` every `jwt-svid`-use key of a
domain, in order. -/
def jwtKeysOfEntry {Key : Type} (lib : GoStdlib Key) (domain : String) :
    List TrustKey → Except BuildErr (List (List Nat))
  | [] => .ok []
  | k :: rest =>
    if k.use ≠ "jwt-svid" then
      jwtKeysOfEntry lib domain rest
    else
      match lib.marshalTrustKey k with
      | none => .error (.marshalJwtKey domain)
      | some b =>
        match jwtKeysOfEntry lib domain rest with
        | .error e => .error e
        | .ok more => .ok (b :: more)

/-- The `for domain, entry := range tb.TrustDomains` loop of
`buildJWTBundlesResponse`: skip domains with no `jwt-svid`-use key,
serialize the others' keys as a `{keys: [...]}` document. -/
def addJwtDomains {Key : Type} (lib : GoStdlib Key) (bundles : Bundles) :
    List (String × TrustDomainEntry) → Except BuildErr Bundles
  | [] => .ok bundles
  | (domain, entry) :: rest =>
    match jwtKeysOfEntry lib domain entry.keys with
    | .error e => .error e
    | .ok keys =>
      if keys.length = 0 then
        addJwtDomains lib bundles rest
      else
        match lib.marshalKeysDoc keys with
        | none => .error (.marshalJwks domain)
        | some doc =>
          addJwtDomains lib
            (mapInsert bundles ("spiffe://" ++ domain) doc) rest

/-- `buildJWTBundlesResponse`: read `trust_bundles.json` and serialize
each domain's `jwt-svid`-use keys; it reads no other file. -/
def buildJWTBundlesResponse {Key : Type} (lib : GoStdlib Key) (fs : FS) :
    Except BuildErr JWTBundlesResponse :=
  match loadTrustBundles fs with
  | .error e => .error e
  | .ok tb =>
    match addJwtDomains lib [] tb with
    | .error e => .error e
    | .ok bundles => .ok ⟨bundles⟩

/-! ## The rotation broadcaster

`broadcaster` keeps, under a mutex, a map from subscription id to a
buffered channel of capacity one. A channel is modelled by its queue
length (a `Nat`); the capacity-one non-blocking send of `broadcast`
(`select { case ch <- struct{}{}: default: }`) enqueues when the buffer
has room and drops otherwise, so it is a total function and never
waits on the receiver. -/

/-- The non-blocking send on a capacity-one channel: enqueue if there is
room, otherwise drop. -/
def trySend (n : Nat) : Nat :=
  if n < 1 then n + 1 else n

/-- The broadcaster state: the subscription map (id, pending
notifications in that subscriber's channel) and the next fresh id. -/
structure Broadcaster where
  subs : List (Nat × Nat)
  next : Nat
deriving Repr, DecidableEq

/-- `newBroadcaster`: empty subscription map. -/
def newBroadcaster : Broadcaster := ⟨[], 0⟩

/-- `subscribe`: allocate a fresh id with an empty capacity-one channel. -/
def Broadcaster.subscribe (b : Broadcaster) : Nat × Broadcaster :=
  (b.next, ⟨b.subs ++ [(b.next, 0)], b.next + 1⟩)

/-- `unsubscribe(id)`: remove the subscription. -/
def Broadcaster.unsubscribe (b : Broadcaster) (id : Nat) : Broadcaster :=
  ⟨b.subs.filter (fun p => p.1 ≠ id), b.next⟩

/-- `broadcast`: a non-blocking send to every subscription. -/
def Broadcaster.broadcast (b : Broadcaster) : Broadcaster :=
  ⟨b.subs.map (fun p => (p.1, trySend p.2)), b.next⟩

/-- A subscriber draining one notification from its channel
(`<-rotated` in the session loop). -/
def Broadcaster.consume (b : Broadcaster) (id : Nat) : Broadcaster :=
  ⟨b.subs.map (fun p => if p.1 = id then (p.1, p.2 - 1) else p), b.next⟩

/-- One step of the hub: any of its operations, fired by any session or
by the watcher. -/
inductive BStep : Broadcaster → Broadcaster → Prop where
  | subscribe (b : Broadcaster) : BStep b b.subscribe.2
  | unsubscribe (b : Broadcaster) (id : Nat) : BStep b (b.unsubscribe id)
  | broadcast (b : Broadcaster) : BStep b b.broadcast
  | consume (b : Broadcaster) (id : Nat) : BStep b (b.consume id)

/-- The states the hub can reach from startup. -/
inductive BReachable : Broadcaster → Prop where
  | init : BReachable newBroadcaster
  | step {b b' : Broadcaster} : BReachable b → BStep b b' → BReachable b'

/-! ## The streaming session handlers

Each `Fetch*` handler builds and sends an initial response (a build
error terminates the session with a gRPC `Internal` status before
anything is sent), then subscribes and loops: on a rotation signal it
rebuilds — logging and continuing on failure, sending on success —
until the client's context is done. A session is run against the
initial directory state and the list of directory states observed at
each rotation signal before the client disconnects. -/

/-- The gRPC status a session can end with; `FetchX509SVID` and friends
wrap every initial build error in `codes.Internal`. -/
inductive GrpcStatus where
  | internal (e : BuildErr)
deriving Repr, DecidableEq

/-- The observable outcome of one streaming session: the payloads sent,
in order, and the final status (`none` is a clean return on client
disconnect). -/
structure StreamRun (R : Type) where
  sent : List R
  failure : Option GrpcStatus
deriving Repr, DecidableEq

/-- The `for { select { ... case <-rotated: ... } }` loop: each rotation
rebuild either fails (log, `continue`, nothing sent) or yields a payload
that is sent; the list ends when the context is done. -/
def sessionLoop {R : Type} : List (Except BuildErr R) → List R
  | [] => []
  | .error _ :: rest => sessionLoop rest
  | .ok r :: rest => r :: sessionLoop rest

/-- The common shape of the three `Fetch*` stream handlers: initial
build, initial send, then the rotation loop. -/
def runStream {R : Type} (initial : Except BuildErr R)
    (rotations : List (Except BuildErr R)) : StreamRun R :=
  match initial with
  | .error e => ⟨[], some (.internal e)⟩
  | .ok r => ⟨r :: sessionLoop rotations, none⟩

/-- `FetchX509SVID` observed over a session: `fs₀` is the directory at
the initial build, `rots` the directory at each rotation signal. -/
def fetchX509SVID {Key : Type} (lib : GoStdlib Key) (fs₀ : FS)
    (rots : List FS) : StreamRun X509SVIDResponse :=
  runStream (buildX509SVIDResponse lib fs₀)
    (rots.map (buildX509SVIDResponse lib))

/-- `FetchX509Bundles` observed over a session. -/
def fetchX509Bundles {Key : Type} (lib : GoStdlib Key) (fs₀ : FS)
    (rots : List FS) : StreamRun X509BundlesResponse :=
  runStream (buildX509BundlesResponse lib fs₀)
    (rots.map (buildX509BundlesResponse lib))

/-- `FetchJWTBundles` observed over a session. -/
def fetchJWTBundles {Key : Type} (lib : GoStdlib Key) (fs₀ : FS)
    (rots : List FS) : StreamRun JWTBundlesResponse :=
  runStream (buildJWTBundlesResponse lib fs₀)
    (rots.map (buildJWTBundlesResponse lib))

/-! ## A small concrete standard library and directory states

Concrete instantiations of the `GoStdlib` boundary and of the
credentials directory, used to evaluate the theorems on explicit
inputs. `toyLib` keys are `Bool`; its byte languages are chosen tiny:
`[1]` is the one parseable certificate, `[2]` the one parseable SEC1
key, `[4]` the one parseable PKCS#1 key, `"good"` the one decodable
base64 string, and `[8, 1]` / `[8, 0]` the PKCS#8 marshallings of the
two keys. -/

/-- The one certificate `toyLib` can parse: leaf with SPIFFE ID
`spiffe://example.org/workload`. -/
def toyCert : Certificate :=
  ⟨[⟨"spiffe://example.org/workload", "example.org"⟩]⟩

/-- A concrete `GoStdlib` over `Bool` keys. -/
def toyLib : GoStdlib Bool where
  parseCertificate := fun bs => if bs = [1] then some toyCert else none
  parseECPrivateKey := fun bs => if bs = [2] then some true else none
  parsePKCS1PrivateKey := fun bs => if bs = [4] then some true else none
  marshalPKCS8PrivateKey := fun k => some (if k then [8, 1] else [8, 0])
  base64Decode := fun s => if s = "good" then some [7] else none
  marshalTrustKey := fun k => if k.x = "badkey" then none else some [6]
  marshalKeysDoc := fun ls => some (ls.flatten ++ [0])

/-- A federated `x509-svid`-use key whose single x5c entry decodes. -/
def fedX509Key : TrustKey := ⟨"x509-svid", "RSA", "", "", "", ["good"]⟩

/-- A federated `jwt-svid`-use key. -/
def fedJwtKey : TrustKey := ⟨"jwt-svid", "EC", "P-256", "xx", "yy", []⟩

/-- A directory with `certificates.pem` absent but a readable, valid
(empty) `trust_bundles.json`. -/
def fsNoCert : FS := ⟨none, none, none, some (some [])⟩

/-- A fully valid directory: one leaf certificate, a PKCS#8 key, one CA
certificate, and two federated domains — `fed.org` with only an
`x509-svid` key, `other.org` with only a `jwt-svid` key. -/
def fsGood : FS :=
  ⟨some [.block ⟨"CERTIFICATE", [1]⟩],
   some [.block ⟨"PRIVATE KEY", [8, 1]⟩],
   some [.block ⟨"CERTIFICATE", [3]⟩],
   some (some [("fed.org", ⟨[fedX509Key], 1⟩),
               ("other.org", ⟨[fedJwtKey], 1⟩)])⟩

/-- Like `fsGood`, but the federated domain's x5c entry is not valid
base64. -/
def fsBadX5C : FS :=
  ⟨some [.block ⟨"CERTIFICATE", [1]⟩],
   some [.block ⟨"PRIVATE KEY", [8, 1]⟩],
   some [.block ⟨"CERTIFICATE", [3]⟩],
   some (some [("fed.org", ⟨[⟨"x509-svid", "RSA", "", "", "", ["bad"]⟩], 1⟩)])⟩

/-! ## Helper lemmas -/

theorem spiffe_prefix_inj {a b : String}
    (h : "spiffe://" ++ a = "spiffe://" ++ b) : a = b := by
  have hd : ("spiffe://" ++ a).data = ("spiffe://" ++ b).data :=
    congrArg String.data h
  simp [String.data_append] at hd
  exact String.ext hd

theorem pemBlocks_blocks_append (bs : List PemBlock) (l : List PemItem) :
    pemBlocks (bs.map PemItem.block ++ l) = bs ++ pemBlocks l := by
  induction bs with
  | nil => simp
  | cons b rest ih => simp [pemBlocks, ih]

theorem mapLookup_mapInsert_self (m : Bundles) (k : String) (v : List Nat) :
    mapLookup (mapInsert m k v) k = some v := by
  induction m with
  | nil => simp [mapInsert, mapLookup]
  | cons p rest ih =>
    obtain ⟨k₀, v₀⟩ := p
    by_cases h : k₀ = k
    · simp [mapInsert, mapLookup, h]
    · simp [mapInsert, mapLookup, h, ih]

theorem mapLookup_mapInsert_ne (m : Bundles) {k k' : String} (v : List Nat)
    (h : k' ≠ k) : mapLookup (mapInsert m k v) k' = mapLookup m k' := by
  induction m with
  | nil => simp [mapInsert, mapLookup, Ne.symm h]
  | cons p rest ih =>
    obtain ⟨k₀, v₀⟩ := p
    by_cases hp : k₀ = k
    · simp [mapInsert, mapLookup, hp, Ne.symm h]
    · simp [mapInsert, mapLookup, hp, ih]

theorem sessionLoop_append {R : Type} (l₁ l₂ : List (Except BuildErr R)) :
    sessionLoop (l₁ ++ l₂) = sessionLoop l₁ ++ sessionLoop l₂ := by
  induction l₁ with
  | nil => rfl
  | cons x rest ih =>
    match x with
    | .error e => simpa [sessionLoop] using ih
    | .ok r => simpa [sessionLoop] using ih

/-! ## Claim C3 -/

/-- C3: for every key pair, `decode_private_key`
(`loadPrivateKeyPKCS8DER`) applied to a native-PKCS#8 PEM encoding, an
EC (SEC1) PEM encoding, and an RSA (PKCS#1) PEM encoding of that same
key pair produces byte-identical PKCS#8 DER output: all three yield the
key's PKCS#8 marshalling `der`. -/
theorem c3_key_normalization_identical {Key : Type} (lib : GoStdlib Key)
    (k : Key) (der ecBytes rsaBytes : List Nat)
    (hm : lib.marshalPKCS8PrivateKey k = some der)
    (hec : lib.parseECPrivateKey ecBytes = some k)
    (hrsa : lib.parsePKCS1PrivateKey rsaBytes = some k) :
    loadPrivateKeyPKCS8DER lib (some [.block ⟨"PRIVATE KEY", der⟩]) =
      .ok der ∧
    loadPrivateKeyPKCS8DER lib (some [.block ⟨"EC PRIVATE KEY", ecBytes⟩]) =
      .ok der ∧
    loadPrivateKeyPKCS8DER lib (some [.block ⟨"RSA PRIVATE KEY", rsaBytes⟩]) =
      .ok der := by
  refine ⟨rfl, ?_, ?_⟩
  · simp [loadPrivateKeyPKCS8DER, pemDecodeFirst, hec, hm]
  · simp [loadPrivateKeyPKCS8DER, pemDecodeFirst, hrsa, hm]

/-- Witness for C3 at `toyLib`: the key `true`, whose PKCS#8 DER is
`[8, 1]`, its SEC1 bytes `[2]` and its PKCS#1 bytes `[4]`. -/
theorem c3_key_normalization_identical_witness :
    loadPrivateKeyPKCS8DER toyLib (some [.block ⟨"PRIVATE KEY", [8, 1]⟩]) =
      .ok [8, 1] ∧
    loadPrivateKeyPKCS8DER toyLib (some [.block ⟨"EC PRIVATE KEY", [2]⟩]) =
      .ok [8, 1] ∧
    loadPrivateKeyPKCS8DER toyLib (some [.block ⟨"RSA PRIVATE KEY", [4]⟩]) =
      .ok [8, 1] :=
  c3_key_normalization_identical toyLib true [8, 1] [2] [4] rfl rfl rfl

/-! ## Claim C4 -/

/-- C4 counterexample: the bytes `[9]` are malformed key material under
`toyLib` (no key of any supported format parses from them, and no key's
PKCS#8 marshalling equals them), yet `decode_private_key` succeeds on a
`PRIVATE KEY` PEM block holding them, returning them unvalidated —
refuting "it never succeeds on malformed key bytes". -/
theorem c4_malformed_pkcs8_succeeds :
    loadPrivateKeyPKCS8DER toyLib (some [.block ⟨"PRIVATE KEY", [9]⟩]) =
      .ok [9] ∧
    (∀ k : Bool, toyLib.marshalPKCS8PrivateKey k ≠ some [9]) ∧
    toyLib.parseECPrivateKey [9] = none ∧
    toyLib.parsePKCS1PrivateKey [9] = none :=
  ⟨rfl, by decide, rfl, rfl⟩

/-- C4 (amended): `decode_private_key` fails with `IOError` if the file
is unreadable, with a parse error when the file has no decodable PEM
block or when EC (SEC1) or RSA (PKCS#1) key bytes are malformed, and
with `UnsupportedFormat` for any block type other than PKCS#8, EC or
RSA; but the bytes of a native-PKCS#8 (`PRIVATE KEY`) block are
returned without validation, so malformed bytes inside such a block
succeed. -/
theorem c4_key_error_taxonomy {Key : Type} (lib : GoStdlib Key)
    (items : List PemItem) (b : PemBlock) :
    loadPrivateKeyPKCS8DER lib none = .error (.ioError "private_key.pem") ∧
    (pemDecodeFirst items = none →
      loadPrivateKeyPKCS8DER lib (some items) =
        .error (.noPemBlock "private_key.pem")) ∧
    (pemDecodeFirst items = some b → b.ty = "EC PRIVATE KEY" →
      lib.parseECPrivateKey b.bytes = none →
      loadPrivateKeyPKCS8DER lib (some items) = .error .parseECKey) ∧
    (pemDecodeFirst items = some b → b.ty = "RSA PRIVATE KEY" →
      lib.parsePKCS1PrivateKey b.bytes = none →
      loadPrivateKeyPKCS8DER lib (some items) = .error .parseRSAKey) ∧
    (pemDecodeFirst items = some b → b.ty ≠ "PRIVATE KEY" →
      b.ty ≠ "EC PRIVATE KEY" → b.ty ≠ "RSA PRIVATE KEY" →
      loadPrivateKeyPKCS8DER lib (some items) =
        .error (.unsupportedKeyType b.ty)) ∧
    (pemDecodeFirst items = some b → b.ty = "PRIVATE KEY" →
      loadPrivateKeyPKCS8DER lib (some items) = .ok b.bytes) := by
  refine ⟨rfl, ?_, ?_, ?_, ?_, ?_⟩
  · intro h; simp [loadPrivateKeyPKCS8DER, h]
  · intro h hty hec; simp [loadPrivateKeyPKCS8DER, h, hty, hec]
  · intro h hty hrsa; simp [loadPrivateKeyPKCS8DER, h, hty, hrsa]
  · intro h h₁ h₂ h₃; simp [loadPrivateKeyPKCS8DER, h, h₁, h₂, h₃]
  · intro h hty; simp [loadPrivateKeyPKCS8DER, h, hty]

/-- Witness for C4 (amended) at `toyLib`: each error branch and the
unvalidated PKCS#8 passthrough on concrete one-block files. -/
theorem c4_key_error_taxonomy_witness :
    loadPrivateKeyPKCS8DER toyLib (some [.junk]) =
      .error (.noPemBlock "private_key.pem") ∧
    loadPrivateKeyPKCS8DER toyLib (some [.block ⟨"EC PRIVATE KEY", [9]⟩]) =
      .error .parseECKey ∧
    loadPrivateKeyPKCS8DER toyLib (some [.block ⟨"RSA PRIVATE KEY", [9]⟩]) =
      .error .parseRSAKey ∧
    loadPrivateKeyPKCS8DER toyLib (some [.block ⟨"OPENSSH PRIVATE KEY", [9]⟩]) =
      .error (.unsupportedKeyType "OPENSSH PRIVATE KEY") ∧
    loadPrivateKeyPKCS8DER toyLib (some [.block ⟨"PRIVATE KEY", [8, 0]⟩]) =
      .ok [8, 0] :=
  ⟨(c4_key_error_taxonomy toyLib [.junk] ⟨"", []⟩).2.1 rfl,
   (c4_key_error_taxonomy toyLib [.block ⟨"EC PRIVATE KEY", [9]⟩]
      ⟨"EC PRIVATE KEY", [9]⟩).2.2.1 rfl rfl rfl,
   (c4_key_error_taxonomy toyLib [.block ⟨"RSA PRIVATE KEY", [9]⟩]
      ⟨"RSA PRIVATE KEY", [9]⟩).2.2.2.1 rfl rfl rfl,
   (c4_key_error_taxonomy toyLib [.block ⟨"OPENSSH PRIVATE KEY", [9]⟩]
      ⟨"OPENSSH PRIVATE KEY", [9]⟩).2.2.2.2.1 rfl (by decide) (by decide)
      (by decide),
   (c4_key_error_taxonomy toyLib [.block ⟨"PRIVATE KEY", [8, 0]⟩]
      ⟨"PRIVATE KEY", [8, 0]⟩).2.2.2.2.2 rfl rfl⟩

/-! ## Claim C8 -/

/-- C8: `decode_certificate_chain` (`loadPEMDERs`) returns the decoded
blocks up to the first undecodable point, yields `.ok []` (not an
error) when no valid structure is found, and the response builders then
treat an empty chain as a data error and fail that build. -/
theorem c8_best_effort_pem_parse {Key : Type} (lib : GoStdlib Key)
    (name : String) (bs : List PemBlock) (tail : List PemItem)
    (fs : FS) (items : List PemItem)
    (hfs : fs.certificates = some items) (hempty : pemBlocks items = []) :
    loadPEMDERs (some (bs.map PemItem.block ++ PemItem.junk :: tail)) name =
      .ok (bs.map PemBlock.bytes) ∧
    loadPEMDERs (some (PemItem.junk :: tail)) name = .ok [] ∧
    loadPEMDERs (some []) name = .ok [] ∧
    buildX509SVIDResponse lib fs = .error .noCertificates ∧
    buildX509BundlesResponse lib fs = .error .noCertificates := by
  refine ⟨?_, rfl, rfl, ?_, ?_⟩
  · simp [loadPEMDERs, pemBlocks_blocks_append, pemBlocks]
  · simp [buildX509SVIDResponse, loadPEMDERs, hfs, hempty]
  · simp [buildX509BundlesResponse, loadPEMDERs, hfs, hempty]

/-- Witness for C8: a chain of one block followed by undecodable data,
and a directory whose `certificates.pem` holds no decodable block. -/
theorem c8_best_effort_pem_parse_witness :
    loadPEMDERs (some [.block ⟨"CERTIFICATE", [1]⟩, .junk])
      "certificates.pem" = .ok [[1]] ∧
    loadPEMDERs (some [.junk]) "certificates.pem" = .ok [] ∧
    loadPEMDERs (some []) "certificates.pem" = .ok [] ∧
    buildX509SVIDResponse toyLib ⟨some [.junk], none, none, none⟩ =
      .error .noCertificates ∧
    buildX509BundlesResponse toyLib ⟨some [.junk], none, none, none⟩ =
      .error .noCertificates :=
  c8_best_effort_pem_parse toyLib "certificates.pem" [⟨"CERTIFICATE", [1]⟩]
    [] ⟨some [.junk], none, none, none⟩ [.junk] rfl rfl

/-! ## Claim C10 -/

theorem pemBlocks_zipWith (tys : List String) (bss : List (List Nat))
    (hlen : tys.length = bss.length) :
    (pemBlocks (List.zipWith (fun t b => PemItem.block ⟨t, b⟩) tys bss)).map
      PemBlock.bytes = bss := by
  induction tys generalizing bss with
  | nil =>
    cases bss with
    | nil => rfl
    | cons b bs => simp at hlen
  | cons t ts ih =>
    cases bss with
    | nil => simp at hlen
    | cons b bs => simp [pemBlocks, ih bs (by simpa using hlen)]

theorem decodeX5C_parseCert_irrel {Key : Type} (lib : GoStdlib Key)
    (g : List Nat → Option Certificate) (domain : String) (xs : List String) :
    decodeX5C { lib with parseCertificate := g } domain xs =
      decodeX5C lib domain xs := by
  induction xs with
  | nil => rfl
  | cons c rest ih => simp only [decodeX5C, ih]

theorem domainX509DERs_parseCert_irrel {Key : Type} (lib : GoStdlib Key)
    (g : List Nat → Option Certificate) (domain : String)
    (ks : List TrustKey) :
    domainX509DERs { lib with parseCertificate := g } domain ks =
      domainX509DERs lib domain ks := by
  induction ks with
  | nil => rfl
  | cons k rest ih =>
    simp only [domainX509DERs, ih, decodeX5C_parseCert_irrel]

theorem addFederated_parseCert_irrel {Key : Type} (lib : GoStdlib Key)
    (g : List Nat → Option Certificate) (localTD : String) (bundles : Bundles)
    (l : List (String × TrustDomainEntry)) :
    addFederated { lib with parseCertificate := g } localTD bundles l =
      addFederated lib localTD bundles l := by
  induction l generalizing bundles with
  | nil => rfl
  | cons p rest ih =>
    obtain ⟨domain, entry⟩ := p
    simp only [addFederated, domainX509DERs_parseCert_irrel, ih]

/-- C10: the certificate-chain decoder never inspects PEM block types —
a file of blocks with arbitrary type labels (e.g. a `PRIVATE KEY` block
in `certificates.pem`) yields exactly those blocks' bytes; the SVID
response concatenates all of them into the wire material; and only the
first block is ever parsed as a certificate, so the builders are
unchanged under any reinterpretation of `x509.ParseCertificate` that
agrees on the first block. -/
theorem c10_pem_type_labels_ignored {Key : Type} (lib : GoStdlib Key)
    (g : List Nat → Option Certificate) (name : String)
    (tys : List String) (bss : List (List Nat))
    (hlen : tys.length = bss.length)
    (fs : FS) (c₀ : List Nat) (cr : List (List Nat))
    (hcerts : loadPEMDERs fs.certificates "certificates.pem" = .ok (c₀ :: cr))
    (hg : g c₀ = lib.parseCertificate c₀) :
    loadPEMDERs (some (List.zipWith (fun t b => PemItem.block ⟨t, b⟩) tys bss))
      name = .ok bss ∧
    buildX509SVIDResponse { lib with parseCertificate := g } fs =
      buildX509SVIDResponse lib fs ∧
    buildX509BundlesResponse { lib with parseCertificate := g } fs =
      buildX509BundlesResponse lib fs ∧
    (∀ r, buildX509SVIDResponse lib fs = .ok r →
      r.svids.map X509SVID.x509Svid = [concatDERs (c₀ :: cr)]) := by
  refine ⟨?_, ?_, ?_, ?_⟩
  · simp [loadPEMDERs, pemBlocks_zipWith tys bss hlen]
  · have hkey : loadPrivateKeyPKCS8DER { lib with parseCertificate := g }
        fs.privateKey = loadPrivateKeyPKCS8DER lib fs.privateKey := rfl
    simp [buildX509SVIDResponse, hcerts, hkey, hg]
  · simp [buildX509BundlesResponse, hcerts, hg, addFederated_parseCert_irrel]
  · intro r hr
    simp only [buildX509SVIDResponse, hcerts] at hr
    split at hr
    · exact Except.noConfusion hr
    · split at hr
      · exact Except.noConfusion hr
      · split at hr
        · exact Except.noConfusion hr
        · split at hr
          · exact Except.noConfusion hr
          · cases hr
            simp

/-- Witness for C10: a `certificates.pem` whose only block is labelled
`PRIVATE KEY` still yields that block's bytes, and on `fsGood` the
builders ignore `x509.ParseCertificate`'s behaviour beyond the first
block. -/
theorem c10_pem_type_labels_ignored_witness :
    loadPEMDERs (some [.block ⟨"PRIVATE KEY", [5]⟩]) "certificates.pem" =
      .ok [[5]] ∧
    buildX509SVIDResponse
      { toyLib with parseCertificate := fun _ => some toyCert } fsGood =
      buildX509SVIDResponse toyLib fsGood ∧
    buildX509BundlesResponse
      { toyLib with parseCertificate := fun _ => some toyCert } fsGood =
      buildX509BundlesResponse toyLib fsGood ∧
    (∀ r, buildX509SVIDResponse toyLib fsGood = .ok r →
      r.svids.map X509SVID.x509Svid = [concatDERs [[1]]]) :=
  c10_pem_type_labels_ignored toyLib (fun _ => some toyCert)
    "certificates.pem" ["PRIVATE KEY"] [[5]] rfl fsGood [1] [] rfl rfl

/-! ## Claim C1 -/

/-- C1 counterexample: with `certificates.pem` absent (and a readable,
valid `trust_bundles.json`), the JWT-bundle build succeeds and the
JWT-bundle stream sends its initial payload — refuting "the initial
response build fails for every one of the three streaming operations".
-/
theorem c1_jwt_build_succeeds_without_certificates :
    fsNoCert.certificates = none ∧
    buildJWTBundlesResponse toyLib fsNoCert = .ok ⟨[]⟩ ∧
    fetchJWTBundles toyLib fsNoCert [] = ⟨[⟨[]⟩], none⟩ :=
  ⟨rfl, rfl, rfl⟩

/-- C1 (amended): if `certificates.pem` is absent or contains no valid
certificate structure, the initial response build fails with an
internal-error condition for the SVID stream and the X.509-bundle
stream; the JWT-bundle build never reads `certificates.pem`, so it is
unaffected. -/
theorem c1_missing_certificates_fails_x509_streams {Key : Type}
    (lib : GoStdlib Key) (fs : FS) (rots : List FS)
    (h : fs.certificates = none ∨
      ∃ items, fs.certificates = some items ∧ pemBlocks items = []) :
    (∃ e, buildX509SVIDResponse lib fs = .error e) ∧
    (∃ e, buildX509BundlesResponse lib fs = .error e) ∧
    (∃ e, fetchX509SVID lib fs rots = ⟨[], some (.internal e)⟩) ∧
    (∃ e, fetchX509Bundles lib fs rots = ⟨[], some (.internal e)⟩) ∧
    (∀ certs,
      buildJWTBundlesResponse lib { fs with certificates := certs } =
        buildJWTBundlesResponse lib fs) := by
  have hsvid : ∃ e, buildX509SVIDResponse lib fs = .error e := by
    rcases h with h | ⟨items, hi, he⟩
    · exact ⟨.ioError "certificates.pem",
        by simp [buildX509SVIDResponse, loadPEMDERs, h]⟩
    · exact ⟨.noCertificates,
        by simp [buildX509SVIDResponse, loadPEMDERs, hi, he]⟩
  have hbun : ∃ e, buildX509BundlesResponse lib fs = .error e := by
    rcases h with h | ⟨items, hi, he⟩
    · exact ⟨.ioError "certificates.pem",
        by simp [buildX509BundlesResponse, loadPEMDERs, h]⟩
    · exact ⟨.noCertificates,
        by simp [buildX509BundlesResponse, loadPEMDERs, hi, he]⟩
  obtain ⟨e₁, h₁⟩ := hsvid
  obtain ⟨e₂, h₂⟩ := hbun
  refine ⟨⟨e₁, h₁⟩, ⟨e₂, h₂⟩, ⟨e₁, ?_⟩, ⟨e₂, ?_⟩, fun certs => rfl⟩
  · simp [fetchX509SVID, runStream, h₁]
  · simp [fetchX509Bundles, runStream, h₂]

/-- Witness for C1 (amended) at the directory with `certificates.pem`
absent. -/
theorem c1_missing_certificates_fails_x509_streams_witness :
    (∃ e, buildX509SVIDResponse toyLib fsNoCert = .error e) ∧
    (∃ e, buildX509BundlesResponse toyLib fsNoCert = .error e) ∧
    (∃ e, fetchX509SVID toyLib fsNoCert [] = ⟨[], some (.internal e)⟩) ∧
    (∃ e, fetchX509Bundles toyLib fsNoCert [] = ⟨[], some (.internal e)⟩) ∧
    (∀ certs,
      buildJWTBundlesResponse toyLib { fsNoCert with certificates := certs } =
        buildJWTBundlesResponse toyLib fsNoCert) :=
  c1_missing_certificates_fails_x509_streams toyLib fsNoCert [] (Or.inl rfl)

/-! ## Claim C2 -/

/-- C2: for every streaming operation, a build error on the initial
response terminates the session with an internal-error status and no
payload sent; a build error during a rotation-triggered rebuild sends
no payload for that rotation but leaves the session open (clean
termination on disconnect, later rotations still delivered). -/
theorem c2_error_propagation_policy {Key : Type} (lib : GoStdlib Key) :
    (∀ fs₀ rots e, buildX509SVIDResponse lib fs₀ = .error e →
      fetchX509SVID lib fs₀ rots = ⟨[], some (.internal e)⟩) ∧
    (∀ fs₀ rots e, buildX509BundlesResponse lib fs₀ = .error e →
      fetchX509Bundles lib fs₀ rots = ⟨[], some (.internal e)⟩) ∧
    (∀ fs₀ rots e, buildJWTBundlesResponse lib fs₀ = .error e →
      fetchJWTBundles lib fs₀ rots = ⟨[], some (.internal e)⟩) ∧
    (∀ fs₀ r pre fsBad post e, buildX509SVIDResponse lib fs₀ = .ok r →
      buildX509SVIDResponse lib fsBad = .error e →
      fetchX509SVID lib fs₀ (pre ++ fsBad :: post) =
        ⟨r :: (sessionLoop (pre.map (buildX509SVIDResponse lib)) ++
               sessionLoop (post.map (buildX509SVIDResponse lib))), none⟩) ∧
    (∀ fs₀ r pre fsBad post e, buildX509BundlesResponse lib fs₀ = .ok r →
      buildX509BundlesResponse lib fsBad = .error e →
      fetchX509Bundles lib fs₀ (pre ++ fsBad :: post) =
        ⟨r :: (sessionLoop (pre.map (buildX509BundlesResponse lib)) ++
               sessionLoop (post.map (buildX509BundlesResponse lib))), none⟩) ∧
    (∀ fs₀ r pre fsBad post e, buildJWTBundlesResponse lib fs₀ = .ok r →
      buildJWTBundlesResponse lib fsBad = .error e →
      fetchJWTBundles lib fs₀ (pre ++ fsBad :: post) =
        ⟨r :: (sessionLoop (pre.map (buildJWTBundlesResponse lib)) ++
               sessionLoop (post.map (buildJWTBundlesResponse lib))), none⟩) := by
  refine ⟨?_, ?_, ?_, ?_, ?_, ?_⟩
  · intro fs₀ rots e h; simp [fetchX509SVID, runStream, h]
  · intro fs₀ rots e h; simp [fetchX509Bundles, runStream, h]
  · intro fs₀ rots e h; simp [fetchJWTBundles, runStream, h]
  · intro fs₀ r pre fsBad post e hok hbad
    simp [fetchX509SVID, runStream, hok, hbad, List.map_append,
      sessionLoop_append, sessionLoop]
  · intro fs₀ r pre fsBad post e hok hbad
    simp [fetchX509Bundles, runStream, hok, hbad, List.map_append,
      sessionLoop_append, sessionLoop]
  · intro fs₀ r pre fsBad post e hok hbad
    simp [fetchJWTBundles, runStream, hok, hbad, List.map_append,
      sessionLoop_append, sessionLoop]

/-- Witness for C2: the three streams failing on their initial build,
and the three streams surviving a failed rebuild at the one rotation
signal of their session. -/
theorem c2_error_propagation_policy_witness :
    fetchX509SVID toyLib fsNoCert [] =
      ⟨[], some (.internal (.ioError "certificates.pem"))⟩ ∧
    fetchX509Bundles toyLib fsNoCert [] =
      ⟨[], some (.internal (.ioError "certificates.pem"))⟩ ∧
    fetchJWTBundles toyLib ⟨none, none, none, none⟩ [] =
      ⟨[], some (.internal (.ioError "trust_bundles.json"))⟩ ∧
    fetchX509SVID toyLib fsGood [fsNoCert] =
      ⟨[⟨[⟨"spiffe://example.org/workload", [1], [8, 1], [3]⟩]⟩], none⟩ ∧
    fetchX509Bundles toyLib fsGood [fsNoCert] =
      ⟨[⟨[("spiffe://example.org", [3]), ("spiffe://fed.org", [7])]⟩],
       none⟩ ∧
    fetchJWTBundles toyLib fsGood [⟨none, none, none, none⟩] =
      ⟨[⟨[("spiffe://other.org", [6, 0])]⟩], none⟩ := by
  have h := c2_error_propagation_policy toyLib
  refine ⟨h.1 fsNoCert [] _ rfl, h.2.1 fsNoCert [] _ rfl,
    h.2.2.1 ⟨none, none, none, none⟩ [] _ rfl, ?_, ?_, ?_⟩
  · simpa using h.2.2.2.1 fsGood
      ⟨[⟨"spiffe://example.org/workload", [1], [8, 1], [3]⟩]⟩ [] fsNoCert []
      (.ioError "certificates.pem") rfl rfl
  · simpa using h.2.2.2.2.1 fsGood
      ⟨[("spiffe://example.org", [3]), ("spiffe://fed.org", [7])]⟩ []
      fsNoCert [] (.ioError "certificates.pem") rfl rfl
  · simpa using h.2.2.2.2.2 fsGood ⟨[("spiffe://other.org", [6, 0])]⟩ []
      ⟨none, none, none, none⟩ [] (.ioError "trust_bundles.json") rfl rfl

/-! ## Claim C7 -/

theorem trySend_le_one {n : Nat} (h : n ≤ 1) : trySend n ≤ 1 := by
  unfold trySend
  split <;> omega

/-- In every reachable hub state, every subscription's channel holds at
most one pending notification. -/
theorem breachable_at_most_one {b : Broadcaster} (hb : BReachable b) :
    ∀ p ∈ b.subs, p.2 ≤ 1 := by
  induction hb with
  | init => intro p hp; simp [newBroadcaster] at hp
  | @step b b' _ hs ih =>
    cases hs with
    | subscribe =>
      intro p hp
      simp only [Broadcaster.subscribe, List.mem_append,
        List.mem_singleton] at hp
      rcases hp with hp | hp
      · exact ih p hp
      · simp [hp]
    | unsubscribe id =>
      intro p hp
      simp only [Broadcaster.unsubscribe, List.mem_filter] at hp
      exact ih p hp.1
    | broadcast =>
      intro p hp
      simp only [Broadcaster.broadcast, List.mem_map] at hp
      obtain ⟨q, hq, hpq⟩ := hp
      subst hpq
      exact trySend_le_one (ih q hq)
    | consume id =>
      intro p hp
      simp only [Broadcaster.consume, List.mem_map] at hp
      obtain ⟨q, hq, hpq⟩ := hp
      by_cases hid : q.1 = id
      · rw [if_pos hid] at hpq
        subst hpq
        have := ih q hq
        omega
      · rw [if_neg hid] at hpq
        subst hpq
        exact ih q hq

/-- C7: in every reachable hub state, each subscription channel holds
at most one pending notification; `broadcast` is a per-subscriber
non-blocking single-slot send (`trySend`) applied independently to
every registered channel — a full channel stays at one pending (the
send is dropped), an empty one becomes one pending — and the at-most-
one invariant is preserved, so no subscriber that never drains its
channel can accumulate notifications or block the others. -/
theorem c7_nonblocking_single_slot_broadcast (b : Broadcaster)
    (hb : BReachable b) :
    (∀ p ∈ b.subs, p.2 ≤ 1) ∧
    b.broadcast.subs = b.subs.map (fun p => (p.1, trySend p.2)) ∧
    (∀ p ∈ b.subs, p.2 = 1 → (p.1, 1) ∈ b.broadcast.subs) ∧
    (∀ p ∈ b.subs, p.2 = 0 → (p.1, 1) ∈ b.broadcast.subs) ∧
    (∀ p ∈ b.broadcast.subs, p.2 ≤ 1) := by
  refine ⟨breachable_at_most_one hb, rfl, ?_, ?_, ?_⟩
  · intro p hp h1
    simp only [Broadcaster.broadcast, List.mem_map]
    exact ⟨p, hp, by simp [h1, trySend]⟩
  · intro p hp h0
    simp only [Broadcaster.broadcast, List.mem_map]
    exact ⟨p, hp, by simp [h0, trySend]⟩
  · exact breachable_at_most_one (hb.step (BStep.broadcast b))

/-- Witness for C7 at the reachable state with one subscriber holding
one undrained notification. -/
theorem c7_nonblocking_single_slot_broadcast_witness :
    (∀ p ∈ (⟨[(0, 1)], 1⟩ : Broadcaster).subs, p.2 ≤ 1) ∧
    (Broadcaster.broadcast ⟨[(0, 1)], 1⟩).subs =
      (⟨[(0, 1)], 1⟩ : Broadcaster).subs.map
        (fun p => (p.1, trySend p.2)) ∧
    (∀ p ∈ (⟨[(0, 1)], 1⟩ : Broadcaster).subs, p.2 = 1 →
      (p.1, 1) ∈ (Broadcaster.broadcast ⟨[(0, 1)], 1⟩).subs) ∧
    (∀ p ∈ (⟨[(0, 1)], 1⟩ : Broadcaster).subs, p.2 = 0 →
      (p.1, 1) ∈ (Broadcaster.broadcast ⟨[(0, 1)], 1⟩).subs) ∧
    (∀ p ∈ (Broadcaster.broadcast ⟨[(0, 1)], 1⟩).subs, p.2 ≤ 1) :=
  c7_nonblocking_single_slot_broadcast ⟨[(0, 1)], 1⟩
    (BReachable.step (BReachable.step BReachable.init (BStep.subscribe _))
      (BStep.broadcast _))

/-! ## Claim C5 -/

/-- What the federated-domain loop does to the bundle map: the
`localTD` entry is never touched, and any other entry of the result was
already there or records a federated domain's non-empty decoded
material. -/
theorem addFederated_ok_lookup {Key : Type} (lib : GoStdlib Key)
    (localTD : String) (l : List (String × TrustDomainEntry))
    (bundles out : Bundles)
    (h : addFederated lib localTD bundles l = .ok out) :
    mapLookup out localTD = mapLookup bundles localTD ∧
    ∀ k v, mapLookup out k = some v →
      mapLookup bundles k = some v ∨
      ∃ domain entry ders, (domain, entry) ∈ l ∧
        k = "spiffe://" ++ domain ∧ k ≠ localTD ∧
        domainX509DERs lib domain entry.keys = .ok ders ∧
        ders.length > 0 ∧ v = concatDERs ders := by
  induction l generalizing bundles with
  | nil =>
    simp only [addFederated] at h
    cases h
    exact ⟨rfl, fun k v hv => Or.inl hv⟩
  | cons p rest ih =>
    obtain ⟨domain, entry⟩ := p
    simp only [addFederated] at h
    by_cases hloc : "spiffe://" ++ domain = localTD
    · rw [if_pos hloc] at h
      obtain ⟨h1, h2⟩ := ih bundles h
      refine ⟨h1, fun k v hv => (h2 k v hv).imp id ?_⟩
      rintro ⟨d, e, ds, hm, hk, hne, hds, hl, hveq⟩
      exact ⟨d, e, ds, List.mem_cons_of_mem _ hm, hk, hne, hds, hl, hveq⟩
    · rw [if_neg hloc] at h
      split at h
      · exact Except.noConfusion h
      · rename_i ders hd
        by_cases hlen : ders.length > 0
        · rw [if_pos hlen] at h
          obtain ⟨h1, h2⟩ := ih _ h
          constructor
          · rw [h1, mapLookup_mapInsert_ne _ _ (Ne.symm hloc)]
          · intro k v hv
            rcases h2 k v hv with hv' | ⟨d, e, ds, hm, hk, hne, hds, hl, hveq⟩
            · by_cases hkd : k = "spiffe://" ++ domain
              · subst hkd
                rw [mapLookup_mapInsert_self] at hv'
                cases hv'
                exact Or.inr ⟨domain, entry, ders, List.mem_cons_self _ _,
                  rfl, hloc, hd, hlen, rfl⟩
              · rw [mapLookup_mapInsert_ne _ _ hkd] at hv'
                exact Or.inl hv'
            · exact Or.inr ⟨d, e, ds, List.mem_cons_of_mem _ hm, hk, hne,
                hds, hl, hveq⟩
        · rw [if_neg hlen] at h
          obtain ⟨h1, h2⟩ := ih _ h
          refine ⟨h1, fun k v hv => (h2 k v hv).imp id ?_⟩
          rintro ⟨d, e, ds, hm, hk, hne, hds, hl, hveq⟩
          exact ⟨d, e, ds, List.mem_cons_of_mem _ hm, hk, hne, hds, hl, hveq⟩

/-- C5: every successful X.509 trust-bundle map maps the local trust
domain `spiffe://<host>` (host of the leaf's first URI SAN) to the
concatenated CA bundle — a Trust Domain Map entry naming the local
domain never overwrites it — and any other entry is a federated domain
of the Trust Domain Map whose decoded `x509-svid` material is
non-empty. -/
theorem c5_x509_bundle_local_and_federated {Key : Type}
    (lib : GoStdlib Key) (fs : FS) (c₀ : List Nat) (cr : List (List Nat))
    (leaf : Certificate) (u : GoURI) (ur : List GoURI)
    (caDERs : List (List Nat)) (tds : TrustBundlesFile)
    (resp : X509BundlesResponse)
    (hcerts : loadPEMDERs fs.certificates "certificates.pem" = .ok (c₀ :: cr))
    (hleaf : lib.parseCertificate c₀ = some leaf)
    (huris : leaf.uris = u :: ur)
    (hca : loadPEMDERs fs.caCertificates "ca_certificates.pem" = .ok caDERs)
    (htb : loadTrustBundles fs = .ok tds)
    (hok : buildX509BundlesResponse lib fs = .ok resp) :
    mapLookup resp.bundles ("spiffe://" ++ u.host) =
      some (concatDERs caDERs) ∧
    ∀ k v, k ≠ "spiffe://" ++ u.host →
      mapLookup resp.bundles k = some v →
      ∃ domain entry ders, (domain, entry) ∈ tds ∧
        k = "spiffe://" ++ domain ∧
        domainX509DERs lib domain entry.keys = .ok ders ∧
        ders.length > 0 ∧ v = concatDERs ders := by
  simp only [buildX509BundlesResponse, hcerts, hleaf, huris, hca, htb] at hok
  split at hok
  · exact Except.noConfusion hok
  · rename_i bundles hadd
    cases hok
    obtain ⟨h1, h2⟩ := addFederated_ok_lookup lib _ tds _ _ hadd
    constructor
    · rw [h1]; simp [mapLookup]
    · intro k v hk hv
      rcases h2 k v hv with hv' | ⟨d, e, ds, hm, hkd, _, hds, hl, hveq⟩
      · simp [mapLookup, Ne.symm hk] at hv'
      · exact ⟨d, e, ds, hm, hkd, hds, hl, hveq⟩

/-- Witness for C5 on `fsGood`: the local domain `spiffe://example.org`
maps to the CA bundle, and the only other entry is the federated
`fed.org` with its decoded x5c material. -/
theorem c5_x509_bundle_local_and_federated_witness :
    mapLookup (X509BundlesResponse.bundles
        ⟨[("spiffe://example.org", [3]), ("spiffe://fed.org", [7])]⟩)
      ("spiffe://" ++ "example.org") = some (concatDERs [[3]]) ∧
    (∀ k v, k ≠ "spiffe://" ++ "example.org" →
      mapLookup (X509BundlesResponse.bundles
          ⟨[("spiffe://example.org", [3]), ("spiffe://fed.org", [7])]⟩)
        k = some v →
      ∃ domain entry ders,
        (domain, entry) ∈ [("fed.org", (⟨[fedX509Key], 1⟩ : TrustDomainEntry)),
          ("other.org", ⟨[fedJwtKey], 1⟩)] ∧
        k = "spiffe://" ++ domain ∧
        domainX509DERs toyLib domain entry.keys = .ok ders ∧
        ders.length > 0 ∧ v = concatDERs ders) :=
  c5_x509_bundle_local_and_federated toyLib fsGood [1] [] toyCert
    ⟨"spiffe://example.org/workload", "example.org"⟩ [] [[3]]
    [("fed.org", ⟨[fedX509Key], 1⟩), ("other.org", ⟨[fedJwtKey], 1⟩)]
    ⟨[("spiffe://example.org", [3]), ("spiffe://fed.org", [7])]⟩
    rfl rfl rfl rfl rfl rfl

/-! ## Claim C6 -/

/-- A successful `jwtKeysOfEntry` run marshals exactly the
`jwt-svid`-use keys, in order. -/
theorem jwtKeysOfEntry_forall₂ {Key : Type} (lib : GoStdlib Key)
    (domain : String) (ks : List TrustKey) (bs : List (List Nat))
    (h : jwtKeysOfEntry lib domain ks = .ok bs) :
    List.Forall₂ (fun k b => lib.marshalTrustKey k = some b)
      (ks.filter (fun k => k.use == "jwt-svid")) bs := by
  induction ks generalizing bs with
  | nil => cases h; exact List.Forall₂.nil
  | cons k rest ih =>
    simp only [jwtKeysOfEntry] at h
    by_cases hu : k.use = "jwt-svid"
    · rw [if_neg (by simp [hu])] at h
      split at h
      · exact Except.noConfusion h
      · rename_i b hb
        split at h
        · exact Except.noConfusion h
        · rename_i more hmore
          cases h
          rw [List.filter_cons_of_pos (by simp [hu])]
          exact List.Forall₂.cons hb (ih more hmore)
    · rw [if_pos (by simp [hu])] at h
      rw [List.filter_cons_of_neg (by simp [hu])]
      exact ih bs h

/-- Domains not named in the remaining list keep their lookup result
through the JWT-bundle loop. -/
theorem addJwtDomains_lookup_not_mem {Key : Type} (lib : GoStdlib Key)
    (l : List (String × TrustDomainEntry)) (bundles out : Bundles)
    (h : addJwtDomains lib bundles l = .ok out) (domain : String)
    (hnot : domain ∉ l.map Prod.fst) :
    mapLookup out ("spiffe://" ++ domain) =
      mapLookup bundles ("spiffe://" ++ domain) := by
  induction l generalizing bundles with
  | nil => cases h; rfl
  | cons p rest ih =>
    obtain ⟨d, e⟩ := p
    simp only [List.map_cons, List.mem_cons, not_or] at hnot
    obtain ⟨hd, hnot'⟩ := hnot
    simp only [addJwtDomains] at h
    split at h
    · exact Except.noConfusion h
    · rename_i keys hkeys
      by_cases hlen : keys.length = 0
      · rw [if_pos hlen] at h
        exact ih _ h hnot'
      · rw [if_neg hlen] at h
        split at h
        · exact Except.noConfusion h
        · rename_i doc hdoc
          rw [ih _ h hnot',
            mapLookup_mapInsert_ne _ _
              (fun hh => hd (spiffe_prefix_inj hh))]

/-- What the JWT-bundle loop does for a domain of the list: its keys
marshal successfully, and the domain's final entry is present (holding
the serialized key-set document) exactly when it has at least one
`jwt-svid`-use key. -/
theorem addJwtDomains_lookup_mem {Key : Type} (lib : GoStdlib Key)
    (l : List (String × TrustDomainEntry)) (bundles out : Bundles)
    (h : addJwtDomains lib bundles l = .ok out)
    (domain : String) (entry : TrustDomainEntry)
    (hmem : (domain, entry) ∈ l) (hnd : (l.map Prod.fst).Nodup)
    (hinit : mapLookup bundles ("spiffe://" ++ domain) = none) :
    ∃ keys, jwtKeysOfEntry lib domain entry.keys = .ok keys ∧
      ((keys = [] ∧ mapLookup out ("spiffe://" ++ domain) = none) ∨
       (keys ≠ [] ∧ ∃ doc, lib.marshalKeysDoc keys = some doc ∧
         mapLookup out ("spiffe://" ++ domain) = some doc)) := by
  induction l generalizing bundles with
  | nil => cases hmem
  | cons p rest ih =>
    obtain ⟨d, e⟩ := p
    simp only [addJwtDomains] at h
    rcases List.mem_cons.mp hmem with heq | hmem'
    · cases heq
      have hnotrest : domain ∉ rest.map Prod.fst := by
        simpa using hnd.not_mem
      split at h
      · exact Except.noConfusion h
      · rename_i keys hkeys
        refine ⟨keys, hkeys, ?_⟩
        by_cases hlen : keys.length = 0
        · rw [if_pos hlen] at h
          have hkeep := addJwtDomains_lookup_not_mem lib rest _ _ h
            domain hnotrest
          exact Or.inl ⟨List.length_eq_zero.mp hlen,
            by rw [hkeep, hinit]⟩
        · rw [if_neg hlen] at h
          split at h
          · exact Except.noConfusion h
          · rename_i doc hdoc
            have hkeep := addJwtDomains_lookup_not_mem lib rest _ _ h
              domain hnotrest
            exact Or.inr ⟨fun hk => hlen (by simp [hk]), doc, hdoc,
              by rw [hkeep, mapLookup_mapInsert_self]⟩
    · have hd : d ≠ domain := by
        intro hh
        subst hh
        exact hnd.not_mem (by simpa using List.mem_map_of_mem Prod.fst hmem')
      split at h
      · exact Except.noConfusion h
      · rename_i keys hkeys
        by_cases hlen : keys.length = 0
        · rw [if_pos hlen] at h
          exact ih _ h hmem' (by simpa using hnd.of_cons) hinit
        · rw [if_neg hlen] at h
          split at h
          · exact Except.noConfusion h
          · rename_i doc hdoc
            refine ih _ h hmem' (by simpa using hnd.of_cons) ?_
            rw [mapLookup_mapInsert_ne _ _
              (fun hh => hd (spiffe_prefix_inj hh).symm)]
            exact hinit

/-- C6: for every parsed Trust Domain Map with distinct domain names,
the JWT trust-bundle response has an entry for `spiffe://<domain>` iff
the domain has at least one `jwt-svid`-use key, and that entry is the
serialized key-set document of exactly the marshalled `jwt-svid`-use
keys (in order); keys with any other use value are filtered out, never
errors. -/
theorem c6_jwt_bundles_exactly_jwt_keys {Key : Type} (lib : GoStdlib Key)
    (fs : FS) (tds : TrustBundlesFile) (resp : JWTBundlesResponse)
    (domain : String) (entry : TrustDomainEntry)
    (htb : loadTrustBundles fs = .ok tds)
    (hnd : (tds.map Prod.fst).Nodup)
    (hok : buildJWTBundlesResponse lib fs = .ok resp)
    (hmem : (domain, entry) ∈ tds) :
    ∃ keys, jwtKeysOfEntry lib domain entry.keys = .ok keys ∧
      List.Forall₂ (fun k b => lib.marshalTrustKey k = some b)
        (entry.keys.filter (fun k => k.use == "jwt-svid")) keys ∧
      ((∃ k ∈ entry.keys, k.use = "jwt-svid") ↔
        ∃ v, mapLookup resp.bundles ("spiffe://" ++ domain) = some v) ∧
      (∀ v, mapLookup resp.bundles ("spiffe://" ++ domain) = some v →
        lib.marshalKeysDoc keys = some v) := by
  simp only [buildJWTBundlesResponse, htb] at hok
  split at hok
  · exact Except.noConfusion hok
  · rename_i bundles hadd
    cases hok
    obtain ⟨keys, hkeys, hdisj⟩ :=
      addJwtDomains_lookup_mem lib tds [] bundles hadd domain entry hmem
        hnd rfl
    have hfa := jwtKeysOfEntry_forall₂ lib domain entry.keys keys hkeys
    have hlen := hfa.length_eq
    have hiff : (∃ k ∈ entry.keys, k.use = "jwt-svid") ↔ keys ≠ [] := by
      constructor
      · intro ⟨k, hk, hku⟩ hkeys0
        subst hkeys0
        have : entry.keys.filter (fun k => k.use == "jwt-svid") = [] :=
          List.length_eq_zero.mp (by simpa using hlen)
        have := List.filter_eq_nil_iff.mp this k hk
        simp [hku] at this
      · intro hne
        have hfne : entry.keys.filter (fun k => k.use == "jwt-svid") ≠ []
            := by
          intro hnil
          exact hne (List.length_eq_zero.mp (by simp [← hlen, hnil]))
        obtain ⟨k, hk⟩ := List.exists_mem_of_ne_nil _ hfne
        have hk' := List.mem_filter.mp hk
        exact ⟨k, hk'.1, by simpa using hk'.2⟩
    refine ⟨keys, hkeys, hfa, ?_, ?_⟩
    · rw [hiff]
      rcases hdisj with ⟨hk0, hnone⟩ | ⟨hkne, doc, hdoc, hsome⟩
      · subst hk0
        simp [hnone]
      · simp only [hsome]
        exact ⟨fun _ => ⟨doc, rfl⟩, fun _ => hkne⟩
    · intro v hv
      rcases hdisj with ⟨hk0, hnone⟩ | ⟨hkne, doc, hdoc, hsome⟩
      · rw [hnone] at hv
        exact Option.noConfusion hv
      · rw [hsome] at hv
        cases hv
        exact hdoc

/-- Witness for C6 on `fsGood` at domain `other.org`, whose only key
has use `jwt-svid`. -/
theorem c6_jwt_bundles_exactly_jwt_keys_witness :
    ∃ keys, jwtKeysOfEntry toyLib "other.org" [fedJwtKey] = .ok keys ∧
      List.Forall₂ (fun k b => toyLib.marshalTrustKey k = some b)
        (([fedJwtKey] : List TrustKey).filter
          (fun k => k.use == "jwt-svid")) keys ∧
      ((∃ k ∈ [fedJwtKey], k.use = "jwt-svid") ↔
        ∃ v, mapLookup (JWTBundlesResponse.bundles
            ⟨[("spiffe://other.org", [6, 0])]⟩)
          ("spiffe://" ++ "other.org") = some v) ∧
      (∀ v, mapLookup (JWTBundlesResponse.bundles
            ⟨[("spiffe://other.org", [6, 0])]⟩)
          ("spiffe://" ++ "other.org") = some v →
        toyLib.marshalKeysDoc keys = some v) :=
  c6_jwt_bundles_exactly_jwt_keys toyLib fsGood
    [("fed.org", ⟨[fedX509Key], 1⟩), ("other.org", ⟨[fedJwtKey], 1⟩)]
    ⟨[("spiffe://other.org", [6, 0])]⟩ "other.org" ⟨[fedJwtKey], 1⟩
    rfl (by decide) rfl (by decide)

/-! ## Claim C9 -/

theorem decodeX5C_error_of_bad {Key : Type} (lib : GoStdlib Key)
    (domain : String) (xs : List String) (c : String)
    (hc : c ∈ xs) (hbad : lib.base64Decode c = none) :
    ∃ e, decodeX5C lib domain xs = .error e := by
  induction xs with
  | nil => cases hc
  | cons x rest ih =>
    rcases List.mem_cons.mp hc with heq | hmem
    · subst heq
      exact ⟨.x5cDecode domain, by simp [decodeX5C, hbad]⟩
    · cases hx : lib.base64Decode x with
      | none => exact ⟨.x5cDecode domain, by simp [decodeX5C, hx]⟩
      | some der =>
        obtain ⟨e, he⟩ := ih hmem
        exact ⟨e, by simp [decodeX5C, hx, he]⟩

theorem domainX509DERs_error_of_bad {Key : Type} (lib : GoStdlib Key)
    (domain : String) (ks : List TrustKey) (key : TrustKey) (c : String)
    (hkey : key ∈ ks) (huse : key.use = "x509-svid") (hc : c ∈ key.x5c)
    (hbad : lib.base64Decode c = none) :
    ∃ e, domainX509DERs lib domain ks = .error e := by
  induction ks with
  | nil => cases hkey
  | cons k rest ih =>
    rcases List.mem_cons.mp hkey with heq | hmem
    · subst heq
      obtain ⟨e, he⟩ := decodeX5C_error_of_bad lib domain key.x5c c hc hbad
      exact ⟨e, by simp [domainX509DERs, huse, he]⟩
    · by_cases hu : k.use = "x509-svid"
      · cases hd : decodeX5C lib domain k.x5c with
        | error e => exact ⟨e, by simp [domainX509DERs, hu, hd]⟩
        | ok ders =>
          obtain ⟨e, he⟩ := ih hmem
          exact ⟨e, by simp [domainX509DERs, hu, hd, he]⟩
      · obtain ⟨e, he⟩ := ih hmem
        exact ⟨e, by simp [domainX509DERs, hu, he]⟩

theorem addFederated_error_of_bad {Key : Type} (lib : GoStdlib Key)
    (localTD : String) (l : List (String × TrustDomainEntry))
    (bundles : Bundles) (domain : String) (entry : TrustDomainEntry)
    (hmem : (domain, entry) ∈ l)
    (hne : "spiffe://" ++ domain ≠ localTD)
    (herr : ∃ e, domainX509DERs lib domain entry.keys = .error e) :
    ∃ e, addFederated lib localTD bundles l = .error e := by
  induction l generalizing bundles with
  | nil => cases hmem
  | cons p rest ih =>
    obtain ⟨d, e₀⟩ := p
    rcases List.mem_cons.mp hmem with heq | hmem'
    · cases heq
      obtain ⟨e, he⟩ := herr
      exact ⟨e, by simp [addFederated, hne, he]⟩
    · by_cases hloc : "spiffe://" ++ d = localTD
      · obtain ⟨e, he⟩ := ih bundles hmem'
        exact ⟨e, by simp [addFederated, hloc, he]⟩
      · cases hd : domainX509DERs lib d e₀.keys with
        | error e => exact ⟨e, by simp [addFederated, hloc, hd]⟩
        | ok ders =>
          obtain ⟨e, he⟩ := ih
            (if ders.length > 0 then
              mapInsert bundles ("spiffe://" ++ d) (concatDERs ders)
            else bundles) hmem'
          exact ⟨e, by simp [addFederated, hloc, hd, he]⟩

/-- C9: if any x5c entry of any `x509-svid`-use key in any non-local
trust domain of the Trust Domain Map is not valid base64, the whole
X.509 trust-bundle build fails (no partial bundle map of the other
domains is produced, since the `Except` result carries no map), and a
live rebuild hitting this directory state sends no payload for that
rotation while the session stays open. -/
theorem c9_bad_x5c_fails_whole_build {Key : Type} (lib : GoStdlib Key)
    (fs : FS) (c₀ : List Nat) (cr : List (List Nat)) (leaf : Certificate)
    (u : GoURI) (ur : List GoURI) (caDERs : List (List Nat))
    (tds : TrustBundlesFile) (domain : String) (entry : TrustDomainEntry)
    (key : TrustKey) (c : String)
    (hcerts : loadPEMDERs fs.certificates "certificates.pem" = .ok (c₀ :: cr))
    (hleaf : lib.parseCertificate c₀ = some leaf)
    (huris : leaf.uris = u :: ur)
    (hca : loadPEMDERs fs.caCertificates "ca_certificates.pem" = .ok caDERs)
    (htb : loadTrustBundles fs = .ok tds)
    (hmem : (domain, entry) ∈ tds)
    (hne : "spiffe://" ++ domain ≠ "spiffe://" ++ u.host)
    (hkey : key ∈ entry.keys) (huse : key.use = "x509-svid")
    (hc : c ∈ key.x5c) (hbad : lib.base64Decode c = none) :
    (∃ e, buildX509BundlesResponse lib fs = .error e) ∧
    (∀ fs₀ r pre post, buildX509BundlesResponse lib fs₀ = .ok r →
      fetchX509Bundles lib fs₀ (pre ++ fs :: post) =
        ⟨r :: (sessionLoop (pre.map (buildX509BundlesResponse lib)) ++
               sessionLoop (post.map (buildX509BundlesResponse lib))),
         none⟩) := by
  have herr : ∃ e, domainX509DERs lib domain entry.keys = .error e :=
    domainX509DERs_error_of_bad lib domain entry.keys key c hkey huse hc
      hbad
  obtain ⟨e, he⟩ := addFederated_error_of_bad lib ("spiffe://" ++ u.host)
    tds [("spiffe://" ++ u.host, concatDERs caDERs)] domain entry hmem hne
    herr
  have hbuild : buildX509BundlesResponse lib fs = .error e := by
    simp [buildX509BundlesResponse, hcerts, hleaf, huris, hca, htb, he]
  refine ⟨⟨e, hbuild⟩, ?_⟩
  intro fs₀ r pre post hok
  simp [fetchX509Bundles, runStream, hok, hbuild, List.map_append,
    sessionLoop_append, sessionLoop]

/-- Witness for C9: `fsBadX5C` (federated domain `fed.org` with an
undecodable x5c entry) fails the build, and a session that built from
`fsGood` and sees one rotation pointing at `fsBadX5C` sends nothing for
it and stays open. -/
theorem c9_bad_x5c_fails_whole_build_witness :
    (∃ e, buildX509BundlesResponse toyLib fsBadX5C = .error e) ∧
    (∀ fs₀ r pre post, buildX509BundlesResponse toyLib fs₀ = .ok r →
      fetchX509Bundles toyLib fs₀ (pre ++ fsBadX5C :: post) =
        ⟨r :: (sessionLoop (pre.map (buildX509BundlesResponse toyLib)) ++
               sessionLoop (post.map (buildX509BundlesResponse toyLib))),
         none⟩) :=
  c9_bad_x5c_fails_whole_build toyLib fsBadX5C [1] [] toyCert
    ⟨"spiffe://example.org/workload", "example.org"⟩ [] [[3]]
    [("fed.org", ⟨[⟨"x509-svid", "RSA", "", "", "", ["bad"]⟩], 1⟩)]
    "fed.org" ⟨[⟨"x509-svid", "RSA", "", "", "", ["bad"]⟩], 1⟩
    ⟨"x509-svid", "RSA", "", "", "", ["bad"]⟩ "bad"
    rfl rfl rfl rfl rfl (by decide) (by decide) (by decide) rfl
    (by decide) rfl

end ShimServer
